import Mathlib

/-!
Shallow embedding of the boat-analyzer core (`app2.py`): the CSV table
loader `load_csv_robuste` and the rule evaluator `analyze_dataframe`.
Cells already coerced to numbers are modelled as `Option ℚ` (missing or
non-numeric cells are `none`, mirroring `pd.to_numeric(..., errors="coerce")`);
real arithmetic is modelled over `ℚ`.
-/

/-- Substring containment on character lists, modelling the Python
`needle in hay` operator on strings. -/
def listContains (needle : List Char) : List Char → Bool
  | [] => needle.isEmpty
  | c :: rest => needle.isPrefixOf (c :: rest) || listContains needle rest

/-- `strContains hay needle` models Python `needle in hay`. -/
def strContains (hay needle : String) : Bool :=
  listContains needle.toList hay.toList

/-- ASCII lowercasing of a string as a character list, modelling Python
`str.lower()` on the ASCII column labels and keywords in play. -/
def lowerChars (s : String) : List Char :=
  s.toList.map Char.toLower

/-- Index of the first element satisfying `p`, modelling a top-down
`for`-loop with `break` that reports the loop index. -/
def firstMatch (p : α → Bool) : List α → Option Nat
  | [] => none
  | x :: xs => if p x then some 0 else (firstMatch p xs).map (· + 1)

/-! ## Table loader (`load_csv_robuste`) -/

/-- A raw parsed row: cells are `none` when the permissive CSV parser left a
missing value (pandas `NaN`). `astype(str)` renders a missing cell as the
text `nan`, which the header scan therefore sees; cells are lowercased and
joined with single spaces (`" ".join(raw.iloc[i].astype(str).str.lower())`). -/
def rowText (row : List (Option String)) : List Char :=
  List.intercalate [' '] (row.map (fun c => lowerChars (c.getD "nan")))

/-- The header test of `load_csv_robuste`: the joined, lowercased row text
must contain both `section` and `time`. -/
def rowMatches (row : List (Option String)) : Bool :=
  listContains "section".toList (rowText row) && listContains "time".toList (rowText row)

/-- Header discovery: scan the first `min 50 n` parsed rows top-down and
return the index of the first row passing `rowMatches`
(`for i in range(min(50, len(raw)))` with `break`). -/
def findHeader (raw : List (List (Option String))) : Option Nat :=
  firstMatch rowMatches (raw.take 50)

/-- A body row is dropped when every cell is missing
(`df.dropna(how="all")`). -/
def rowAllMissing (row : List (Option String)) : Bool :=
  row.all (fun c => c.isNone)

/-- `load_csv_robuste`: find the header row, take everything strictly below
it as the data body, drop all-missing rows, and fail when no header is
found or the body is empty. Returns (header row, body rows). -/
def load_csv_robuste (raw : List (List (Option String))) :
    Except String (List (Option String) × List (List (Option String))) :=
  match findHeader raw with
  | none => .error "Impossible de detecter le header"
  | some i =>
    let body := (raw.drop (i + 1)).filter (fun r => !rowAllMissing r)
    if body.isEmpty then .error "Aucune donnee valide apres le header"
    else .ok (raw.getD i [], body)

/-! ## Channel resolution (`find_col` and the `cols` dict) -/

/-- `find_col`: first column label whose lowercased text contains any of the
keywords; returns the column index (the Python code returns the label and
then selects that column). -/
def find_col (labels : List String) (keys : List String) : Option Nat :=
  firstMatch (fun c => keys.any (fun k => listContains k.toList (lowerChars c))) labels

/-- Resolved column indices for the five required logical channels. -/
structure ChanIdx where
  time : Nat
  tps : Nat
  afr : Nat
  fuel : Nat
  ect : Nat
deriving Repr, DecidableEq

/-- The `cols` dict of `analyze_dataframe`; `none` when any required channel
fails to resolve (`any(v is None for v in cols.values())`). -/
def resolveChannels (labels : List String) : Option ChanIdx := do
  let t ← find_col labels ["section time", "time"]
  let p ← find_col labels ["tps"]
  let a ← find_col labels ["lambda"]
  let f ← find_col labels ["fuel"]
  let e ← find_col labels ["ect"]
  pure ⟨t, p, a, f, e⟩

/-! ## Cleaning -/

/-- One row after numeric coercion of the five resolved columns
(`pd.to_numeric(..., errors="coerce")`): each value is `none` when the
original cell was missing or non-numeric. -/
structure RawSample where
  time : Option ℚ
  tps : Option ℚ
  afr : Option ℚ
  fuel : Option ℚ
  ect : Option ℚ
deriving Repr, DecidableEq

/-- One retained row after `dropna(subset=["Time","TPS","AFR","Fuel"])`:
the four required channels are definite, ECT may still be missing. -/
structure Sample where
  time : ℚ
  tps : ℚ
  afr : ℚ
  fuel : ℚ
  ect : Option ℚ
deriving Repr, DecidableEq

/-- The per-row effect of `dropna(subset=["Time","TPS","AFR","Fuel"])`:
a row survives exactly when the four required values are present; ECT is
not consulted. -/
def toSample? (r : RawSample) : Option Sample :=
  match r.time, r.tps, r.afr, r.fuel with
  | some t, some p, some a, some f => some ⟨t, p, a, f, r.ect⟩
  | _, _, _, _ => none

/-- `df.dropna(subset=["Time","TPS","AFR","Fuel"])` over the whole series. -/
def dropnaReq (l : List RawSample) : List Sample :=
  l.filterMap toSample?

/-- Helper loop for the time filter: `prev` is the immediately preceding row
of the pre-filter series (not the previous retained row — pandas `diff()`
is computed against the original neighbour before filtering). -/
def monotonicGo (prev : Sample) : List Sample → List Sample
  | [] => []
  | y :: ys =>
    if prev.time ≤ y.time then y :: monotonicGo y ys else monotonicGo y ys

/-- `df = df[df["Time"].diff().fillna(0) >= 0]`: keep a row iff its
timestamp is ≥ the timestamp of the immediately preceding row of the
pre-filter series; the first row always survives (`fillna(0)`). -/
def monotonicFilter : List Sample → List Sample
  | [] => []
  | x :: xs => x :: monotonicGo x xs

/-- Helper for `diff()`: consecutive differences against `prev`. -/
def dtGo (prev : ℚ) : List ℚ → List ℚ
  | [] => []
  | t :: ts => (t - prev) :: dtGo t ts

/-- `df["Time"].diff().fillna(0)`: 0 for the first sample, then consecutive
timestamp differences. -/
def dtList : List ℚ → List ℚ
  | [] => []
  | t :: ts => 0 :: dtGo t ts

/-! ## Per-sample compliance (`OUT`) -/

/-- pandas `Series.between`, inclusive on both ends. -/
def between (v lo hi : ℚ) : Bool :=
  decide (lo ≤ v) && decide (v ≤ hi)

/-- `df["ECT"] <= bound` on an optional value: a missing ECT compares as
`False` (pandas NaN comparison semantics). -/
def ectLE (e : Option ℚ) (bound : ℚ) : Bool :=
  match e with
  | none => false
  | some v => decide (v ≤ bound)

/-- The `OUT` column: the sample is a violation iff TPS, Lambda and Fuel are
all outside their configured ranges AND ECT is ≤ ambient + offset.
Configuration values are the literals of `CFG` (14.7 = 147/10,
lambda range [3/4, 21/20], offset 20). -/
def outFlag (temp : ℚ) (s : Sample) : Bool :=
  !between s.tps 90 105 &&
  !between (s.afr / (147/10)) (3/4) (21/20) &&
  !between s.fuel 40 60 &&
  ectLE s.ect (temp + 20)

/-! ## Debounce loop -/

/-- One entry of the zipped iteration
`zip(df["Time"], df["OUT"], df["dt"])`. -/
structure Ev where
  t : ℚ
  out : Bool
  dt : ℚ
deriving Repr, DecidableEq

/-- Default entry used with `List.getD`. -/
def devEv : Ev := ⟨0, false, 0⟩

/-- The debounce loop of `analyze_dataframe`: accumulate `dt` over violation
samples, reset to 0 on a compliant sample, and return the current timestamp
as soon as the accumulator reaches the threshold (`cum >= CFG["cheat_delay"]`,
inclusive); `none` means the loop ran to completion (PASS). -/
def debounce (thr : ℚ) : ℚ → List Ev → Option ℚ
  | _, [] => none
  | cum, e :: rest =>
    if e.out then
      if thr ≤ cum + e.dt then some e.t else debounce thr (cum + e.dt) rest
    else
      debounce thr 0 rest

/-- The accumulator value after each sample of the series, ignoring the
early exit: the cumulative contiguous violation duration at each sample
(0 at a compliant sample). -/
def cumList (c : ℚ) : List Ev → List ℚ
  | [] => []
  | e :: rest =>
    (if e.out then c + e.dt else 0) :: cumList (if e.out then c + e.dt else 0) rest

/-- The accumulator value after processing a whole series without
triggering. -/
def finalCum : ℚ → List Ev → ℚ
  | c, [] => c
  | c, e :: rest => finalCum (if e.out then c + e.dt else 0) rest

/-- Zip the cleaned series into debounce entries: timestamp, `OUT` flag,
and `dt` from the retained timestamps. -/
def buildEvs (temp : ℚ) (l : List Sample) : List Ev :=
  List.zipWith (fun s d => ⟨s.time, outFlag temp s, d⟩) l (dtList (l.map Sample.time))

/-! ## The evaluator (`analyze_dataframe`) -/

/-- Extract the five resolved cells of one table row. -/
def toRawSample (c : ChanIdx) (row : List (Option ℚ)) : RawSample :=
  ⟨row.getD c.time none, row.getD c.tps none, row.getD c.afr none,
   row.getD c.fuel none, row.getD c.ect none⟩

/-- `analyze_dataframe`: resolve channels (generic error when any is
missing), coerce, drop rows missing a required value, apply the time
filter, fail when nothing remains, then run the debounce loop with
threshold `CFG["cheat_delay"] = 1/2`. Returns the cleaned series, the
cheat flag and the cheat timestamp. -/
def analyze_dataframe (labels : List String) (rows : List (List (Option ℚ)))
    (temp : ℚ) : Except String (List Sample × Bool × Option ℚ) :=
  match resolveChannels labels with
  | none => .error "Colonnes requises manquantes"
  | some c =>
    let cleaned := monotonicFilter (dropnaReq (rows.map (toRawSample c)))
    if cleaned.isEmpty then .error "Aucune donnee exploitable"
    else
      match debounce (1/2) 0 (buildEvs temp cleaned) with
      | some t => .ok (cleaned, true, some t)
      | none => .ok (cleaned, false, none)

/-- The per-sample Lambda value as the code computes it: the first column
whose lowercased label contains `lambda`, divided by 14.7
(`df["Lambda"] = df["AFR"] / 14.7`). -/
def lambdaOfRow (labels : List String) (row : List (Option ℚ)) : Option ℚ :=
  ((find_col labels ["lambda"]).bind (fun i => row.getD i none)).map
    (fun v => v / (147/10))

/-- Modelled from the spec: "Multiple Lambda-type columns (one per exhaust
sensor) are all collected and averaged per sample, not just the first
match" — the mean of every available lambda-column value, divided by 14.7.
This definition follows the spec text; the code-side definition is
`lambdaOfRow`. -/
def lambdaMeanSpec (labels : List String) (row : List (Option ℚ)) : Option ℚ :=
  let idxs := (List.range labels.length).filter
    (fun i => listContains "lambda".toList (lowerChars (labels.getD i "")))
  let vals := idxs.filterMap (fun i => row.getD i none)
  if vals.isEmpty then none
  else some ((vals.sum / (vals.length : ℚ)) / (147/10))

/-! ## Concrete inputs used by witnesses and counterexamples -/

/-- A four-sample all-violating series with dt = 0, 0.2, 0.2, 0.2: the
accumulator reaches the 0.5 threshold at the fourth sample (t = 0.6). -/
def demoEvs : List Ev :=
  [⟨0, true, 0⟩, ⟨2/10, true, 2/10⟩, ⟨4/10, true, 2/10⟩, ⟨6/10, true, 2/10⟩]

/-- First violation run for the reset-law witness (accumulates 0.2 < 0.5). -/
def demoRun1 : List Ev := [⟨0, true, 0⟩, ⟨2/10, true, 2/10⟩]

/-- The single compliant sample splitting the two violation runs. -/
def demoCompliant : Ev := ⟨4/10, false, 2/10⟩

/-- Second violation run for the reset-law witness (accumulates 0.2 < 0.5). -/
def demoRun2 : List Ev := [⟨6/10, true, 2/10⟩]

/-- A sample carrying only a timestamp (other channels zero, ECT missing). -/
def mkTimeSample (t : ℚ) : Sample := ⟨t, 0, 0, 0, none⟩

/-- Timestamps 5, 3, 4: the vectorized filter drops the 3 (diff −2 < 0) but
keeps the 4 (diff 4 − 3 = 1 ≥ 0), leaving the non-monotone series [5, 4]. -/
def demoRegress : List Sample := [mkTimeSample 5, mkTimeSample 3, mkTimeSample 4]

/-- A series with non-decreasing timestamps. -/
def demoSorted : List Sample := [mkTimeSample 1, mkTimeSample 2, mkTimeSample 3]

/-- One metadata banner row (matches neither keyword). -/
def bannerRow : List (Option String) := [some "Precision Boat Logger", none, none, none, none]

/-- The true header row (contains both `section` and `time`). -/
def demoHeaderRow : List (Option String) :=
  [some "Section Time", some "TPS (Main)", some "Lambda 1", some "Fuel P", some "ECT (C)"]

/-- A data row below the header. -/
def demoDataRow : List (Option String) :=
  [some "0.1", some "95", some "0.9", some "50", some "30"]

/-- A 30-row parsed table: 23 banner rows, the header at row 23, then 6
data rows starting at row 24. -/
def demoRaw : List (List (Option String)) :=
  List.replicate 23 bannerRow ++ demoHeaderRow :: List.replicate 6 demoDataRow

/-- Labels with two Lambda-type columns (one per exhaust sensor). -/
def demoLambdaLabels : List String :=
  ["Section Time", "TPS (Main)", "Lambda 1", "Lambda 2", "Fuel P", "ECT (C)"]

/-- Values 14.7 and 29.4 in the two lambda columns: first-column Lambda is
1, the spec's mean-based Lambda is 1.5. -/
def demoLambdaRow : List (Option ℚ) :=
  [some 0, some 95, some (147/10), some (294/10), some 50, some 30]

/-- Same row with a different value in the second lambda column. -/
def demoLambdaRow2 : List (Option ℚ) :=
  [some 0, some 95, some (147/10), some 999, some 50, some 30]

/-- Labels with no column containing `fuel`. -/
def demoNoFuelLabels : List String :=
  ["Section Time", "TPS (Main)", "Lambda 1", "ECT (C)"]

/-- A complete well-formed set of labels. -/
def demoTableLabels : List String :=
  ["Section Time", "TPS (Main)", "Lambda 1", "Fuel P", "ECT (C)"]

/-- Two well-formed data rows. -/
def demoTableRows : List (List (Option ℚ)) :=
  [[some 0, some 95, some 12, some 50, some 30], [some 1, some 96, some 13, some 50, some 31]]

/-! ## Helper lemmas -/

theorem firstMatch_eq_some (p : α → Bool) (l : List α) (d : α) :
    ∀ i, i < l.length → p (l.getD i d) = true →
      (∀ j, j < i → p (l.getD j d) = false) → firstMatch p l = some i := by
  induction l with
  | nil => intro i hi; simp at hi
  | cons x xs ih =>
    intro i hi hp hfirst
    cases i with
    | zero =>
      simp only [List.getD_cons_zero] at hp
      simp [firstMatch, hp]
    | succ j =>
      have h0 : p x = false := by simpa using hfirst 0 (Nat.succ_pos j)
      have hrec := ih j (by simpa using hi) (by simpa using hp)
        (fun k hk => by simpa using hfirst (k+1) (by omega))
      simp [firstMatch, h0, hrec]

theorem getD_take_eq (l : List α) :
    ∀ (n j : Nat) (d : α), j < n → (l.take n).getD j d = l.getD j d := by
  induction l with
  | nil => simp
  | cons x xs ih =>
    intro n j d h
    cases n with
    | zero => omega
    | succ n =>
      cases j with
      | zero => simp
      | succ j => simpa using ih n j d (by omega)

theorem cumList_take (l : List Ev) :
    ∀ (c : ℚ) (n : Nat), cumList c (l.take n) = (cumList c l).take n := by
  induction l with
  | nil => intro c n; simp [cumList]
  | cons e tail ih =>
    intro c n
    cases n with
    | zero => simp [cumList]
    | succ n => simp [cumList, ih]

theorem debounce_some_aux (thr : ℚ) (evs : List Ev) :
    ∀ (cum : ℚ) (i : Nat), i < evs.length →
      (evs.getD i devEv).out = true →
      thr ≤ (cumList cum evs).getD i 0 →
      (∀ j, j < i → ¬((evs.getD j devEv).out = true ∧ thr ≤ (cumList cum evs).getD j 0)) →
      ∀ rest, debounce thr cum (evs ++ rest) = some (evs.getD i devEv).t := by
  induction evs with
  | nil => intro cum i hi; simp at hi
  | cons e tail ih =>
    intro cum i hi hout hge hfirst rest
    cases i with
    | zero =>
      simp only [List.getD_cons_zero] at hout hge ⊢
      simp only [cumList, hout, if_true, List.getD_cons_zero] at hge
      simp [debounce, hout, hge]
    | succ j =>
      have h0 := hfirst 0 (Nat.succ_pos j)
      by_cases hout0 : e.out = true
      · have hnt : ¬ thr ≤ cum + e.dt := by
          intro hc
          exact h0 ⟨by simpa using hout0, by simpa [cumList, hout0] using hc⟩
        have hge' : thr ≤ (cumList (cum + e.dt) tail).getD j 0 := by
          simpa [cumList, hout0] using hge
        have hfirst' : ∀ k, k < j →
            ¬((tail.getD k devEv).out = true ∧ thr ≤ (cumList (cum + e.dt) tail).getD k 0) := by
          intro k hk
          have := hfirst (k+1) (by omega)
          simpa [cumList, hout0] using this
        have hrec := ih (cum + e.dt) j (by simpa using hi) (by simpa using hout) hge' hfirst' rest
        simpa [debounce, hout0, hnt] using hrec
      · have houtf : e.out = false := by simpa using hout0
        have hge' : thr ≤ (cumList 0 tail).getD j 0 := by
          simpa [cumList, houtf] using hge
        have hfirst' : ∀ k, k < j →
            ¬((tail.getD k devEv).out = true ∧ thr ≤ (cumList 0 tail).getD k 0) := by
          intro k hk
          have := hfirst (k+1) (by omega)
          simpa [cumList, houtf] using this
        have hrec := ih 0 j (by simpa using hi) (by simpa using hout) hge' hfirst' rest
        simpa [debounce, houtf] using hrec

theorem debounce_none_aux (thr : ℚ) (evs : List Ev) :
    ∀ (cum : ℚ),
      (∀ i, i < evs.length → (evs.getD i devEv).out = true →
        (cumList cum evs).getD i 0 < thr) →
      debounce thr cum evs = none := by
  induction evs with
  | nil => intro cum _; rfl
  | cons e tail ih =>
    intro cum h
    by_cases hout : e.out = true
    · have hlt : cum + e.dt < thr := by
        simpa [cumList, hout] using h 0 (Nat.succ_pos _) (by simpa using hout)
      have hrec := ih (cum + e.dt) (fun i hi ho => by
        simpa [cumList, hout] using h (i+1) (by simpa using Nat.succ_lt_succ hi) (by simpa using ho))
      simp [debounce, hout, not_le.mpr hlt, hrec]
    · have houtf : e.out = false := by simpa using hout
      have hrec := ih 0 (fun i hi ho => by
        simpa [cumList, houtf] using h (i+1) (by simpa using Nat.succ_lt_succ hi) (by simpa using ho))
      simp [debounce, houtf, hrec]

theorem debounce_append_none (thr : ℚ) (s1 : List Ev) :
    ∀ (cum : ℚ), debounce thr cum s1 = none →
      ∀ rest, debounce thr cum (s1 ++ rest) = debounce thr (finalCum cum s1) rest := by
  induction s1 with
  | nil => intro cum _ rest; simp [finalCum]
  | cons e tail ih =>
    intro cum h rest
    by_cases hout : e.out = true
    · by_cases htrig : thr ≤ cum + e.dt
      · exfalso; simp [debounce, hout, htrig] at h
      · have h' : debounce thr (cum + e.dt) tail = none := by
          simpa [debounce, hout, htrig] using h
        simp [debounce, hout, htrig, finalCum, ih (cum + e.dt) h' rest]
    · have houtf : e.out = false := by simpa using hout
      have h' : debounce thr 0 tail = none := by
        simpa [debounce, houtf] using h
      simp [debounce, houtf, finalCum, ih 0 h' rest]

theorem monotonicGo_eq (ys : List Sample) :
    ∀ prev : Sample, monotonicGo prev ys =
      ((ys.zip (prev :: ys)).filter (fun p => decide (p.2.time ≤ p.1.time))).map Prod.fst := by
  induction ys with
  | nil => intro prev; simp [monotonicGo]
  | cons y ys ih =>
    intro prev
    by_cases h : prev.time ≤ y.time
    · simp [monotonicGo, h, List.zip_cons_cons, List.filter_cons, ih y]
    · simp [monotonicGo, h, List.zip_cons_cons, List.filter_cons, ih y]

theorem monotonicGo_of_chain (ys : List Sample) :
    ∀ prev : Sample, List.Chain (fun a b => a.time ≤ b.time) prev ys →
      monotonicGo prev ys = ys := by
  induction ys with
  | nil => intro prev _; rfl
  | cons y ys ih =>
    intro prev h
    obtain ⟨h1, h2⟩ := List.chain_cons.mp h
    simp [monotonicGo, h1, ih y h2]

theorem dtGo_nonneg (ts : List ℚ) :
    ∀ prev : ℚ, List.Chain (· ≤ ·) prev ts → ∀ d ∈ dtGo prev ts, 0 ≤ d := by
  induction ts with
  | nil => intro prev _ d hd; simp [dtGo] at hd
  | cons t ts ih =>
    intro prev h d hd
    obtain ⟨h1, h2⟩ := List.chain_cons.mp h
    simp only [dtGo, List.mem_cons] at hd
    rcases hd with hd | hd
    · simpa [hd] using sub_nonneg.mpr h1
    · exact ih t h2 d hd

/-! ## Claim theorems -/

/-- Claim C1 (debounce trigger law): for every series fed to the debounce
loop, if sample `i` is the first violation sample whose cumulative
contiguous violation duration (`cumList`) reaches or exceeds the threshold
(inclusive comparison), the loop returns FAIL at exactly that sample's
timestamp, and the result does not depend on any sample after index `i`
(no later samples are examined); if no violation sample ever reaches the
threshold, the loop returns `none` (PASS). -/
theorem debounce_trigger_law (thr : ℚ) (evs : List Ev) :
    (∀ i, i < evs.length →
      (evs.getD i devEv).out = true →
      thr ≤ (cumList 0 evs).getD i 0 →
      (∀ j, j < i → ¬((evs.getD j devEv).out = true ∧ thr ≤ (cumList 0 evs).getD j 0)) →
      debounce thr 0 evs = some (evs.getD i devEv).t ∧
      ∀ rest, debounce thr 0 (evs.take (i+1) ++ rest) = some (evs.getD i devEv).t) ∧
    ((∀ i, i < evs.length → (evs.getD i devEv).out = true →
        (cumList 0 evs).getD i 0 < thr) →
      debounce thr 0 evs = none) := by
  constructor
  · intro i hi hout hge hfirst
    constructor
    · simpa using debounce_some_aux thr evs 0 i hi hout hge hfirst []
    · intro rest
      have hlen : i < (evs.take (i+1)).length := by
        simp only [List.length_take]
        omega
      have hget : ∀ j, j ≤ i → (evs.take (i+1)).getD j devEv = evs.getD j devEv := by
        intro j hj
        exact getD_take_eq evs (i+1) j devEv (by omega)
      have hcum : ∀ j, j ≤ i →
          (cumList 0 (evs.take (i+1))).getD j 0 = (cumList 0 evs).getD j 0 := by
        intro j hj
        rw [cumList_take]
        exact getD_take_eq (cumList 0 evs) (i+1) j 0 (by omega)
      have h := debounce_some_aux thr (evs.take (i+1)) 0 i hlen
        (by rw [hget i le_rfl]; exact hout)
        (by rw [hcum i le_rfl]; exact hge)
        (fun j hj => by
          rw [hget j (le_of_lt hj), hcum j (le_of_lt hj)]
          exact hfirst j hj)
        rest
      rwa [hget i le_rfl] at h
  · intro h
    exact debounce_none_aux thr evs 0 h

/-- Witness for C1: on the all-violating series with dt = 0, 0.2, 0.2, 0.2
and threshold 0.5, the accumulator first reaches 0.5 at index 3 (cumulative
0.6), FAIL is emitted at that sample's timestamp, and appending further
data does not change the verdict. -/
theorem debounce_trigger_law_witness :
    debounce (1/2) 0 demoEvs = some ((demoEvs.getD 3 devEv).t) ∧
    debounce (1/2) 0 (demoEvs.take 4 ++ [devEv]) = some ((demoEvs.getD 3 devEv).t) := by
  have h := (debounce_trigger_law (1/2) demoEvs).1 3 (by decide)
    (by decide)
    (by norm_num [demoEvs, cumList, List.getD_cons_succ, List.getD_cons_zero])
    (by
      intro j hj
      interval_cases j <;>
        norm_num [demoEvs, cumList, List.getD_cons_succ, List.getD_cons_zero])
  exact ⟨h.1, h.2 [devEv]⟩

/-- Claim C2 (debounce reset law): a compliant sample resets the
accumulator to 0 regardless of any prior accumulation, so violation
duration accumulated before a compliant sample never carries into a later
run: if the first run does not itself trigger, the verdict of
`run1 ++ compliant :: rest` is exactly the verdict of `rest` alone. -/
theorem debounce_reset_law (thr : ℚ) (s1 s2 : List Ev) (c : Ev)
    (hc : c.out = false) (hno : debounce thr 0 s1 = none) :
    debounce thr 0 (s1 ++ c :: s2) = debounce thr 0 s2 ∧
    ∀ cum : ℚ, debounce thr cum (c :: s2) = debounce thr 0 s2 := by
  have hstep : ∀ cum : ℚ, debounce thr cum (c :: s2) = debounce thr 0 s2 := by
    intro cum
    simp [debounce, hc]
  refine ⟨?_, hstep⟩
  rw [debounce_append_none thr s1 0 hno (c :: s2)]
  exact hstep _

/-- Witness for C2: two violation runs of 0.2 s each, split by one
compliant sample, with threshold 0.5: the accumulated 0.2 s of the first
run does not carry over, and the series passes. -/
theorem debounce_reset_law_witness :
    debounce (1/2) 0 (demoRun1 ++ demoCompliant :: demoRun2) = debounce (1/2) 0 demoRun2 ∧
    debounce (1/2) 0 demoRun2 = none := by
  have h := debounce_reset_law (1/2) demoRun1 demoRun2 demoCompliant (by decide)
    (by norm_num [demoRun1, debounce])
  exact ⟨h.1, by norm_num [demoRun2, debounce]⟩

/-- Counterexample to C3 as stated: on input timestamps 5, 3, 4 the filter
retains [5, 4] — the row with timestamp 4 is kept although 4 is strictly
less than the previous retained timestamp 5, and the retained series is
not non-decreasing (the filter compares each row only with its immediate
predecessor in the pre-filter series). -/
theorem monotonic_filter_counterexample :
    (monotonicFilter demoRegress).map Sample.time = [5, 4] ∧
    ¬ List.Chain' (· ≤ ·) ((monotonicFilter demoRegress).map Sample.time) := by
  have h1 : (monotonicFilter demoRegress).map Sample.time = [5, 4] := by decide
  refine ⟨h1, ?_⟩
  rw [h1]
  simp only [List.chain'_cons, List.chain'_singleton, and_true]
  norm_num

/-- Claim C3 (amended): the filter retains the first row uncondition­ally,
and a later row exactly when its timestamp is ≥ the timestamp of its
immediate predecessor in the pre-filter series; rows dropped are exactly
those with a strict time regression against that immediate predecessor
(so the retained series need not be globally non-decreasing). -/
theorem monotonic_filter_amended (x : Sample) (xs : List Sample) :
    monotonicFilter (x :: xs) =
      x :: ((xs.zip (x :: xs)).filter (fun p => decide (p.2.time ≤ p.1.time))).map Prod.fst := by
  simp [monotonicFilter, monotonicGo_eq]

/-- Counterexample to C4 as stated: the retained series of the 5, 3, 4
input is [5, 4], whose dt column is [0, −1] — a strictly negative dt is
fed to the debounce loop. -/
theorem dt_negative_counterexample :
    dtList ((monotonicFilter demoRegress).map Sample.time) = [0, -1] ∧ ¬ ((0:ℚ) ≤ -1) := by
  have h1 : (monotonicFilter demoRegress).map Sample.time = [5, 4] := by decide
  rw [h1]
  constructor
  · norm_num [dtList, dtGo]
  · norm_num

/-- Claim C4 (amended): dt is 0 for the first sample always; and whenever
the series entering the filter already has non-decreasing timestamps, the
filter retains every row and every dt of the retained series is ≥ 0.
(In general the filter can retain a time regression, making dt negative.) -/
theorem dt_nonneg_amended (l : List Sample)
    (h : List.Chain' (fun a b => a.time ≤ b.time) l) :
    monotonicFilter l = l ∧
    (∀ d ∈ dtList (l.map Sample.time), 0 ≤ d) ∧
    (dtList (l.map Sample.time)).getD 0 0 = 0 := by
  cases l with
  | nil => simp [monotonicFilter, dtList]
  | cons x xs =>
    have hchain : List.Chain (fun a b => a.time ≤ b.time) x xs := h
    refine ⟨?_, ?_, ?_⟩
    · simp [monotonicFilter, monotonicGo_of_chain xs x hchain]
    · intro d hd
      simp only [List.map_cons, dtList, List.mem_cons] at hd
      rcases hd with hd | hd
      · simp [hd]
      · have hmap : List.Chain (· ≤ ·) x.time (xs.map Sample.time) :=
          (List.chain_map Sample.time).mpr hchain
        exact dtGo_nonneg (xs.map Sample.time) x.time hmap d hd
    · simp [dtList]

/-- Witness for C4 (amended) at the sorted series with timestamps 1, 2, 3. -/
theorem dt_nonneg_amended_witness :
    monotonicFilter demoSorted = demoSorted ∧
    (∀ d ∈ dtList (demoSorted.map Sample.time), 0 ≤ d) ∧
    (dtList (demoSorted.map Sample.time)).getD 0 0 = 0 :=
  dt_nonneg_amended demoSorted
    (by norm_num [demoSorted, mkTimeSample, List.chain'_cons, List.chain'_singleton])

/-- Claim C5 (header discovery): if row `i` (with `i < min 50 n`) passes the
keyword test and no earlier row does, the loader selects row `i` as the
header; when the body below it is non-empty after dropping all-missing
rows, loading succeeds with exactly that header and body (the first data
row is row `i + 1` when it is not all-missing). -/
theorem header_discovery (raw : List (List (Option String))) (i : Nat)
    (hi : i < min 50 raw.length)
    (hm : rowMatches (raw.getD i []) = true)
    (hfirst : ∀ j, j < i → rowMatches (raw.getD j []) = false) :
    findHeader raw = some i ∧
    (((raw.drop (i+1)).filter (fun r => !rowAllMissing r)).isEmpty = false →
      load_csv_robuste raw =
        .ok (raw.getD i [], (raw.drop (i+1)).filter (fun r => !rowAllMissing r))) := by
  have hlen : i < (raw.take 50).length := by
    simpa [List.length_take] using hi
  have hi50 : i < 50 := lt_of_lt_of_le hi (min_le_left _ _)
  have hfind : findHeader raw = some i := by
    apply firstMatch_eq_some rowMatches (raw.take 50) [] i hlen
    · rw [getD_take_eq raw 50 i [] hi50]
      exact hm
    · intro j hj
      rw [getD_take_eq raw 50 j [] (by omega)]
      exact hfirst j hj
  refine ⟨hfind, fun hne => ?_⟩
  simp [load_csv_robuste, hfind, hne]

/-- Witness for C5: a 30-row table whose keywords appear only on row 23:
the loader selects row 23 as header and the first data row of the returned
body is row 24. -/
theorem header_discovery_witness :
    findHeader demoRaw = some 23 ∧
    load_csv_robuste demoRaw =
      .ok (demoRaw.getD 23 [], (demoRaw.drop 24).filter (fun r => !rowAllMissing r)) ∧
    ((demoRaw.drop 24).filter (fun r => !rowAllMissing r)).getD 0 [] = demoRaw.getD 24 [] := by
  have h := header_discovery demoRaw 23 (by decide) (by decide) (by decide)
  refine ⟨h.1, ?_, by decide⟩
  have h2 := h.2 (by decide)
  simpa using h2

/-- Counterexample to C6 as stated: with two lambda columns holding 14.7
and 29.4, the code's per-sample Lambda is 14.7 / 14.7 = 1 (first matching
column only), while the spec's mean-of-all-lambda-columns value is 1.5 —
the two disagree, so the per-sample Lambda is not the mean. -/
theorem lambda_agg_counterexample :
    lambdaOfRow demoLambdaLabels demoLambdaRow = some 1 ∧
    lambdaMeanSpec demoLambdaLabels demoLambdaRow = some (3/2) ∧
    lambdaOfRow demoLambdaLabels demoLambdaRow ≠ lambdaMeanSpec demoLambdaLabels demoLambdaRow := by
  have hfc : find_col demoLambdaLabels ["lambda"] = some 2 := by decide
  have hidx : (List.range demoLambdaLabels.length).filter
      (fun i => listContains "lambda".toList (lowerChars (demoLambdaLabels.getD i ""))) =
        [2, 3] := by decide
  have h1 : lambdaOfRow demoLambdaLabels demoLambdaRow = some 1 := by
    rw [lambdaOfRow, hfc]
    norm_num [demoLambdaRow, List.getD_cons_succ, List.getD_cons_zero]
  have h2 : lambdaMeanSpec demoLambdaLabels demoLambdaRow = some (3/2) := by
    simp only [lambdaMeanSpec, hidx]
    norm_num [demoLambdaRow, List.filterMap_cons, List.getD_cons_succ, List.getD_cons_zero]
  refine ⟨h1, h2, ?_⟩
  rw [h1, h2]
  intro hcontra
  norm_num at hcontra

/-- Claim C6 (amended): channel resolution picks only the first column
whose lowercased label contains `lambda`; the per-sample Lambda is that
single column's value divided by 14.7, and any change to the other lambda
columns leaves the value unchanged. -/
theorem lambda_first_col_only (labels : List String) (row row2 : List (Option ℚ)) (i : Nat)
    (h : find_col labels ["lambda"] = some i)
    (hagree : row.getD i none = row2.getD i none) :
    lambdaOfRow labels row = lambdaOfRow labels row2 ∧
    lambdaOfRow labels row = (row.getD i none).map (fun v => v / (147/10)) := by
  have hagree2 : row[i]?.getD none = row2[i]?.getD none := by
    simpa [List.getD] using hagree
  constructor
  · simp [lambdaOfRow, h, hagree2]
  · simp [lambdaOfRow, h]

/-- Witness for C6 (amended): changing the second lambda column from 29.4
to 999 does not change the computed Lambda. -/
theorem lambda_first_col_only_witness :
    lambdaOfRow demoLambdaLabels demoLambdaRow = lambdaOfRow demoLambdaLabels demoLambdaRow2 ∧
    lambdaOfRow demoLambdaLabels demoLambdaRow =
      (demoLambdaRow.getD 2 none).map (fun v => v / (147/10)) :=
  lambda_first_col_only demoLambdaLabels demoLambdaRow demoLambdaRow2 2 (by decide) (by rfl)

/-- Counterexample to C7 as stated: with no column label containing `fuel`,
evaluation fails with the fixed message "Colonnes requises manquantes",
which contains neither "Fuel" nor "fuel" — the error does not name the
missing channel. -/
theorem schema_error_counterexample :
    analyze_dataframe demoNoFuelLabels [] 25 = .error "Colonnes requises manquantes" ∧
    strContains "Colonnes requises manquantes" "Fuel" = false ∧
    strContains "Colonnes requises manquantes" "fuel" = false := by
  have hres : resolveChannels demoNoFuelLabels = none := by decide
  exact ⟨by simp [analyze_dataframe, hres], by decide, by decide⟩

/-- Claim C7 (amended): whenever the Fuel channel cannot be resolved to any
column, channel resolution fails and evaluation stops with the generic
error "Colonnes requises manquantes" (which does not name the missing
channel). -/
theorem schema_error_generic (labels : List String) (rows : List (List (Option ℚ)))
    (temp : ℚ) (hfuel : find_col labels ["fuel"] = none) :
    resolveChannels labels = none ∧
    analyze_dataframe labels rows temp = .error "Colonnes requises manquantes" := by
  have hres : resolveChannels labels = none := by
    cases h1 : find_col labels ["section time", "time"] <;>
      cases h2 : find_col labels ["tps"] <;>
        cases h3 : find_col labels ["lambda"] <;>
          simp [resolveChannels, h1, h2, h3, hfuel]
  exact ⟨hres, by simp [analyze_dataframe, hres]⟩

/-- Witness for C7 (amended) at a label set with no fuel column. -/
theorem schema_error_generic_witness :
    resolveChannels demoNoFuelLabels = none ∧
    analyze_dataframe demoNoFuelLabels [] 25 = .error "Colonnes requises manquantes" :=
  schema_error_generic demoNoFuelLabels [] 25 (by decide)

/-- Claim C8 (idempotence / determinism): evaluating the same table
contents with the same ambient temperature yields the identical result —
the evaluator is a pure function of the table and the temperature. -/
theorem analyze_deterministic (labels labels2 : List String)
    (rows rows2 : List (List (Option ℚ))) (temp temp2 : ℚ)
    (hl : labels = labels2) (hr : rows = rows2) (ht : temp = temp2) :
    analyze_dataframe labels rows temp = analyze_dataframe labels2 rows2 temp2 := by
  rw [hl, hr, ht]

/-- Witness for C8 at a concrete table. -/
theorem analyze_deterministic_witness :
    analyze_dataframe demoTableLabels demoTableRows 25 =
      analyze_dataframe demoTableLabels demoTableRows 25 :=
  analyze_deterministic demoTableLabels demoTableLabels demoTableRows demoTableRows 25 25
    rfl rfl rfl

/-- Claim C9 (ECT polarity): a sample is a violation iff TPS, Lambda and
Fuel are all strictly outside their inclusive ranges AND the ECT value is
present and ≤ ambient + 20; in particular an ECT reading above
ambient + 20 suppresses the violation. -/
theorem ect_polarity (temp : ℚ) (s : Sample) :
    (outFlag temp s = true ↔
      ((s.tps < 90 ∨ 105 < s.tps) ∧
       (s.afr / (147/10) < 3/4 ∨ 21/20 < s.afr / (147/10)) ∧
       (s.fuel < 40 ∨ 60 < s.fuel) ∧
       (∃ e, s.ect = some e ∧ e ≤ temp + 20))) ∧
    (∀ e, s.ect = some e → temp + 20 < e → outFlag temp s = false) := by
  constructor
  · cases hect : s.ect with
    | none => simp [outFlag, between, ectLE, hect]
    | some v =>
      simp only [outFlag, between, ectLE, hect, Bool.and_eq_true, Bool.not_eq_true',
        Bool.and_eq_false_iff, decide_eq_true_eq, decide_eq_false_iff_not, not_le,
        Option.some.injEq]
      constructor
      · rintro ⟨⟨⟨htps, hlam⟩, hfuel⟩, hect2⟩
        exact ⟨htps.imp_left id, hlam.imp_left id, hfuel.imp_left id, v, rfl, hect2⟩
      · rintro ⟨htps, hlam, hfuel, e, he, hle⟩
        cases he
        exact ⟨⟨⟨htps, hlam⟩, hfuel⟩, hle⟩
  · intro e he hgt
    have hne : ¬ (e ≤ temp + 20) := not_le.mpr hgt
    simp [outFlag, ectLE, he, hne]

/-- Witness for C9: a sample out of range on TPS, Lambda and Fuel but with
ECT = 100 > ambient 20 + 20 is not a violation. -/
theorem ect_polarity_witness : outFlag 20 ⟨0, 50, 294/10, 80, some 100⟩ = false :=
  (ect_polarity 20 ⟨0, 50, 294/10, 80, some 100⟩).2 100 rfl (by norm_num)

/-- Claim C10 (missing-ECT rows): whether a row survives the required-value
filter depends only on the presence of Time, TPS, AFR and Fuel — a row
whose ECT is missing is retained when those four are present — and a
retained sample with missing ECT is never counted as a violation. -/
theorem missing_ect_retained (r : RawSample) (hect : r.ect = none) :
    ((toSample? r).isSome =
      (r.time.isSome && r.tps.isSome && r.afr.isSome && r.fuel.isSome)) ∧
    (∀ (temp : ℚ) (s : Sample), toSample? r = some s → outFlag temp s = false) := by
  obtain ⟨t, p, a, f, e⟩ := r
  simp only at hect
  subst hect
  constructor
  · cases t <;> cases p <;> cases a <;> cases f <;> simp [toSample?]
  · intro temp s hs
    have hsect : s.ect = none := by
      cases t <;> cases p <;> cases a <;> cases f <;>
        simp only [toSample?, Option.some.injEq, reduceCtorEq] at hs <;> simp [← hs]
    simp [outFlag, ectLE, hsect]

/-- Witness for C10: a row with all required values present but missing ECT
is retained; the resulting sample is not a violation. -/
theorem missing_ect_retained_witness :
    (toSample? ⟨some 1, some 95, some 10, some 50, none⟩).isSome =
      ((some (1:ℚ)).isSome && (some (95:ℚ)).isSome &&
        (some (10:ℚ)).isSome && (some (50:ℚ)).isSome) ∧
    outFlag 25 ⟨1, 95, 10, 50, none⟩ = false := by
  have h := missing_ect_retained ⟨some 1, some 95, some 10, some 50, none⟩ rfl
  exact ⟨h.1, h.2 25 ⟨1, 95, 10, 50, none⟩ rfl⟩
